import Mathlib

/-!
Verification of the core data logic of the Top Films dashboard
(`src/app.py`): the box-office value normalizer `parse_box_office`, the
certificate/year/genre filter pipeline `filtered_df`, and the KPI / table
aggregations of `Home`, `graphs` and `tables`, shallowly embedded over
lists of movie records. Monetary and rating values are modelled as
rationals: every Python float arising from the box-office strings is an
exactly representable decimal, and no float-specific behaviour is
involved in the claims under study.
-/

namespace TopFilms

/-- A decimal digit, `'0'`-`'9'`. -/
def isDigitCh (c : Char) : Bool := decide ('0' ≤ c) && decide (c ≤ '9')

/-- Numeric value of a digit character. -/
def digitVal (c : Char) : ℕ := c.toNat - '0'.toNat

/-- Value of a digit string read left to right. -/
def natOfDigits (cs : List Char) : ℕ := cs.foldl (fun a c => 10 * a + digitVal c) 0

/-- Python `float()` on an unsigned decimal literal: digits, optionally one
decimal point with digits on at least one side (`"12"`, `"12."`, `".5"`,
`"12.5"`). `none` models a raised `ValueError`. Exponent notation,
`inf`/`nan` and underscore separators never occur in box-office data and
are not modelled. -/
def parseUnsigned (cs : List Char) : Option ℚ :=
  let ip := cs.takeWhile isDigitCh
  match cs.dropWhile isDigitCh with
  | [] => if ip = [] then none else some (natOfDigits ip : ℚ)
  | '.' :: fp =>
      if fp.all isDigitCh ∧ (ip ≠ [] ∨ fp ≠ []) then
        some ((natOfDigits ip : ℚ) + (natOfDigits fp : ℚ) / (10 : ℚ) ^ fp.length)
      else none
  | _ => none

/-- Optional leading sign, then `parseUnsigned`. -/
def parseSigned (cs : List Char) : Option ℚ :=
  match cs with
  | '+' :: rest => parseUnsigned rest
  | '-' :: rest => (parseUnsigned rest).map (fun q => -q)
  | _ => parseUnsigned cs

/-- Python `str.strip()`: drop leading and trailing whitespace. -/
def pyStrip (cs : List Char) : List Char :=
  ((cs.dropWhile Char.isWhitespace).reverse.dropWhile Char.isWhitespace).reverse

/-- Python `float(s)` on the decimal-literal subset described at
`parseUnsigned`: `float` strips surrounding whitespace itself before
parsing; `none` models a raised `ValueError`. -/
def parseFloat (cs : List Char) : Option ℚ := parseSigned (pyStrip cs)

/-- The cleaning step of `parse_box_office` (src/app.py:35):
`str(value).replace('$', '').replace(',', '').strip()`. -/
def cleanBO (s : String) : List Char :=
  pyStrip (s.toList.filter (fun c => decide (c ≠ '$' ∧ c ≠ ',')))

/-- `parse_box_office` (src/app.py:32-44). Input `none` models a missing
(`NaN`) cell. Output `none` models an uncaught `ValueError`: the
`try/except ValueError` in the source guards only the final direct-parse
branch, not the two suffix branches, where `float(value[:-1])` is called
bare. -/
def parse_box_office (value : Option String) : Option ℚ :=
  match value with
  | none => some 0
  | some s =>
    let v := cleanBO s
    if v.getLast? = some 'M' then (parseFloat v.dropLast).map (fun q => q * 1000000)
    else if v.getLast? = some 'K' then (parseFloat v.dropLast).map (fun q => q * 1000)
    else
      match parseFloat v with
      | some q => some q
      | none => some 0

/-- One row of the cleaned dataset (src/app.py:27,46-47): `certificate`,
`genre`, `casts` and `rating` are nullable (`NaN` cells, plus
`pd.to_numeric(..., errors='coerce')` for `rating`); `box_office` is the
numeric result of `parse_box_office`. -/
structure Movie where
  name : String
  year : Int
  certificate : Option String
  genre : Option String
  directors : String
  casts : Option String
  rating : Option ℚ
  run_time : ℚ
  box_office : ℚ
deriving DecidableEq

/-- The genre test of src/app.py:93,
`df['genre'].str.contains("Sci-Fi", case=False, na=False)`: a missing
genre is `False` (`na=False`); otherwise a case-insensitive substring
test (the pattern has no regex metacharacters). -/
def genre_contains_scifi : Option String → Bool
  | none => false
  | some g =>
      decide (("Sci-Fi".toList.map Char.toLower) <:+: (g.toList.map Char.toLower))

/-- The filter pipeline of src/app.py:81-93: certificate equality (or no
certificate constraint when `"All"` is selected), inclusive year-range
bounds, then the Sci-Fi genre filter when that menu entry is selected.
A pandas comparison of a `NaN` certificate with a string is `False`,
which `Option.some` equality models. -/
def filtered_df (df : List Movie) (selected_certificate : String) (y1 y2 : Int)
    (selected_genre : String) : List Movie :=
  let base :=
    if selected_certificate = "All" then
      df.filter (fun m => decide (y1 ≤ m.year) && decide (m.year ≤ y2))
    else
      df.filter (fun m =>
        decide (m.certificate = some selected_certificate) &&
        (decide (y1 ≤ m.year) && decide (m.year ≤ y2)))
  if selected_genre = "Sci-Fi" then base.filter (fun m => genre_contains_scifi m.genre)
  else base

/-- Maximum of a list under a linear order, `none` on the empty list. -/
def maxL {α : Type} [LinearOrder α] : List α → Option α
  | [] => none
  | a :: l =>
    match maxL l with
    | none => some a
    | some b => some (max a b)

/-- Lexicographic code-point comparison of two character lists: the order
in which Python (and hence pandas) sorts strings. -/
def charListLe : List Char → List Char → Bool
  | [], _ => true
  | _ :: _, [] => false
  | a :: as, b :: bs =>
    if a.toNat < b.toNat then true
    else if b.toNat < a.toNat then false
    else charListLe as bs

/-- Least string of a list in the order `charListLe`, `none` on the empty
list. -/
def minS : List String → Option String
  | [] => none
  | a :: l =>
    match minS l with
    | none => some a
    | some b => some (if charListLe a.toList b.toList then a else b)

/-- Pandas `Series.idxmax` followed by `.loc[..., col]` (src/app.py:113-114):
`idxmax` skips missing values and returns the label of the first row
attaining the maximum; on an all-missing (hence empty after skipping)
series it raises, which `none` models. -/
def idxmaxBy (f : Movie → Option ℚ) (s : List Movie) : Option Movie :=
  match maxL (s.filterMap f) with
  | none => none
  | some q => s.find? (fun m => decide (f m = some q))

/-- `filtered_df.loc[filtered_df["rating"].idxmax(), "name"]` (src/app.py:113). -/
def top_rated_name (s : List Movie) : Option String :=
  (idxmaxBy Movie.rating s).map Movie.name

/-- `filtered_df.loc[filtered_df["box_office"].idxmax(), "name"]` (src/app.py:114). -/
def top_grossing_name (s : List Movie) : Option String :=
  (idxmaxBy (fun m => some m.box_office) s).map Movie.name

/-- `filtered_df["genre"].mode()[0]` (src/app.py:115). Pandas `mode()`
drops missing values, collects every value attaining the maximal count
and returns them sorted ascending, so `[0]` is the least such value;
on an empty series `[0]` raises, which `none` models. -/
def most_common_genre (s : List Movie) : Option String :=
  let gs := s.filterMap Movie.genre
  match maxL (gs.map (fun g => gs.count g)) with
  | none => none
  | some c => minS (gs.filter (fun g => decide (gs.count g = c)))

/-- The KPI block of `Home` (src/app.py:111-119): total count, top-rated
name, top-grossing name and most common genre, with the `"N/A"`
placeholders on an empty filtered set. `none` models a raised exception
inside the non-empty branch. -/
def Home_kpis (s : List Movie) : Option (ℕ × String × String × String) :=
  if 0 < s.length then
    match top_rated_name s, top_grossing_name s, most_common_genre s with
    | some a, some b, some g => some (s.length, a, b, g)
    | _, _, _ => none
  else some (0, "N/A", "N/A", "N/A")

/-- Python `str.split(',')`: split at every comma, keeping every piece
verbatim (no whitespace stripping, empty pieces preserved). -/
def splitComma : List Char → List (List Char)
  | [] => [[]]
  | ',' :: rest => [] :: splitComma rest
  | c :: rest =>
    match splitComma rest with
    | [] => [[c]]
    | t :: ts => (c :: t) :: ts

/-- The exploded cast tokens feeding `value_counts()` (src/app.py:190):
`filtered_df['casts'].str.split(',').explode()`. A missing `casts` cell
stays missing through `split` and `explode` and is then dropped by
`value_counts`, so it contributes no token. -/
def castTokens (s : List Movie) : List String :=
  s.flatMap (fun m =>
    match m.casts with
    | none => []
    | some cs => (splitComma cs.toList).map (fun l => String.mk l))

/-- Number of occurrences of one token in the exploded cast column: the
count that `value_counts()` reports for that token. -/
def actor_count (s : List Movie) (a : String) : ℕ := (castTokens s).count a

/-- `movies_by_year` (src/app.py:173): `groupby('year').size()`, one row
per distinct year, keys sorted ascending. -/
def yearly_counts (s : List Movie) : List (Int × ℕ) :=
  ((s.map Movie.year).dedup.mergeSort (fun a b => decide (a ≤ b))).map
    (fun y => (y, s.countP (fun m => decide (m.year = y))))

/-- The data computed by `graphs()` after its empty-set guard
(src/app.py:146-178): `none` models the early `return` behind the
`"No data to display"` warning. Of the chart inputs we keep the genre
value column (the input of the genre `value_counts`) and the per-year
counts; the display ordering that `value_counts` applies to tied counts
is not needed by any claim. -/
def graphs_data (s : List Movie) : Option (List String × List (Int × ℕ)) :=
  if s.isEmpty then none
  else some (s.filterMap Movie.genre, yearly_counts s)

/-- The data computed by `tables()` after its empty-set guard
(src/app.py:186-193): `none` models the early `return` behind the
`"No data to display in tables"` warning. We keep the exploded cast
token column; the three `sort_values` leaderboards use pandas' default
`kind='quicksort'`, whose order on tied keys is unspecified, so their
contents are not modelled beyond this guard. -/
def tables_data (s : List Movie) : Option (List String) :=
  if s.isEmpty then none else some (castTokens s)

/-- Demo record: rated 9, grossing 5. -/
def demoR1 : Movie :=
  ⟨"First Nine", 2001, some "PG", some "Drama", "D1", some "A, B", some 9, 120, 5⟩

/-- Demo record: also rated 9 (tied with `demoR1`), grossing 7. -/
def demoR2 : Movie :=
  ⟨"Second Nine", 2002, some "R", some "Action", "D2", some "B, C", some 9, 100, 7⟩

/-- Demo record with no certificate. -/
def demoNoCert : Movie :=
  ⟨"Uncertified", 2000, none, some "Drama", "D3", none, some 5, 90, 1⟩

/-- Demo record with genre Drama. -/
def demoG1 : Movie :=
  ⟨"G1", 2000, some "PG", some "Drama", "D", none, some 5, 90, 1⟩

/-- Demo record with genre Drama. -/
def demoG2 : Movie :=
  ⟨"G2", 2001, some "PG", some "Drama", "D", none, some 5, 90, 1⟩

/-- Demo record with genre Action. -/
def demoG3 : Movie :=
  ⟨"G3", 2002, some "PG", some "Action", "D", none, some 5, 90, 1⟩

/-- Demo record with genre Action. -/
def demoG4 : Movie :=
  ⟨"G4", 2003, some "PG", some "Action", "D", none, some 5, 90, 1⟩

/-- Demo record with casts `"A, B, C"`. -/
def demoC1 : Movie :=
  ⟨"C1", 2000, some "PG", some "Drama", "D", some "A, B, C", some 5, 90, 1⟩

/-- Demo record with casts `"B, D"`. -/
def demoC2 : Movie :=
  ⟨"C2", 2001, some "PG", some "Drama", "D", some "B, D", some 5, 90, 1⟩

example : parse_box_office (some "") = some 0 := by decide
example : parse_box_office (some "N/A") = some 0 := by decide
example : parse_box_office none = some 0 := by rfl
example : parse_box_office (some "$500k") = some 0 := by decide
example : parse_box_office (some "abcM") = none := by decide
example : genre_contains_scifi (some "Action, sci-fi, Drama") = true := by decide
example : genre_contains_scifi (some "Drama") = false := by decide
example : genre_contains_scifi none = false := by decide
example : castTokens [demoC1, demoC2] = ["A", " B", " C", "B", " D"] := by decide
example : most_common_genre [demoG1, demoG2, demoG3, demoG4] = some "Action" := by decide
example : most_common_genre [demoG1, demoG2, demoG3] = some "Drama" := by decide
example : top_rated_name [demoR1, demoR2] = some "First Nine" := by decide
example : top_grossing_name [demoR1, demoR2] = some "Second Nine" := by decide

/-- A list whose last character is neither a digit nor a decimal point is
rejected by `parseUnsigned`. -/
theorem parseUnsigned_eq_none_of_getLast {cs : List Char} {c : Char}
    (hlast : cs.getLast? = some c) (h1 : isDigitCh c = false) (h2 : c ≠ '.') :
    parseUnsigned cs = none := by
  have hmem : c ∈ cs := List.mem_of_getLast?_eq_some hlast
  simp only [parseUnsigned]
  split
  case _ heq =>
    by_cases hip : cs.takeWhile isDigitCh = []
    · simp [hip]
    · exfalso
      have hcs : cs = cs.takeWhile isDigitCh := by
        conv_lhs => rw [← List.takeWhile_append_dropWhile (p := isDigitCh) (l := cs)]
        rw [heq, List.append_nil]
      rw [hcs] at hmem
      have hd := List.mem_takeWhile_imp hmem
      rw [h1] at hd
      exact Bool.noConfusion hd
  case _ fp heq =>
    split
    case _ hcond =>
      exfalso
      have hcs : cs = cs.takeWhile isDigitCh ++ ('.' :: fp) := by
        conv_lhs => rw [← List.takeWhile_append_dropWhile (p := isDigitCh) (l := cs)]
        rw [heq]
      obtain ⟨a, ha⟩ : ∃ a, ('.' :: fp).getLast? = some a :=
        Option.isSome_iff_exists.mp (List.getLast?_isSome.mpr (by simp))
      have hca : (some c : Option Char) = some a := by
        rw [← hlast, hcs, List.getLast?_append, ha]; rfl
      injection hca with hca
      have hmem2 := List.mem_of_getLast?_eq_some ha
      rcases List.mem_cons.mp hmem2 with h | h
      · exact h2 (by rw [hca, h])
      · have hd := List.all_eq_true.mp hcond.1 a h
        rw [← hca, h1] at hd
        exact Bool.noConfusion hd
    case _ => rfl
  case _ => rfl

/-- Stripping whitespace does not change a non-whitespace last character. -/
theorem pyStrip_getLast {cs : List Char} {c : Char}
    (hlast : cs.getLast? = some c) (hc : c.isWhitespace = false) :
    (pyStrip cs).getLast? = some c := by
  have hmem : c ∈ cs := List.mem_of_getLast?_eq_some hlast
  have hdne : cs.dropWhile Char.isWhitespace ≠ [] := by
    intro h
    have hall := List.dropWhile_eq_nil_iff.mp h c hmem
    rw [hc] at hall
    exact Bool.noConfusion hall
  have hdlast : (cs.dropWhile Char.isWhitespace).getLast? = some c := by
    obtain ⟨a, ha⟩ : ∃ a, (cs.dropWhile Char.isWhitespace).getLast? = some a :=
      Option.isSome_iff_exists.mp (List.getLast?_isSome.mpr hdne)
    have hca : (some c : Option Char) = some a := by
      conv_lhs =>
        rw [← hlast, ← List.takeWhile_append_dropWhile (p := Char.isWhitespace) (l := cs)]
      rw [List.getLast?_append, ha]; rfl
    injection hca with hca
    rw [← hca] at ha
    exact ha
  have hrev : (cs.dropWhile Char.isWhitespace).reverse.head? = some c := by
    rw [List.head?_reverse]; exact hdlast
  obtain ⟨ys, hys⟩ := List.head?_eq_some_iff.mp hrev
  have hps : pyStrip cs = ((c :: ys).dropWhile Char.isWhitespace).reverse := by
    rw [pyStrip, hys]
  rw [hps, List.dropWhile_cons, hc]
  simp

/-- A list whose last character is not a digit, point or sign is rejected
by `parseSigned`. -/
theorem parseSigned_eq_none_of_getLast {cs : List Char} {c : Char}
    (hlast : cs.getLast? = some c) (h1 : isDigitCh c = false) (h2 : c ≠ '.')
    (h3 : c ≠ '+') (h4 : c ≠ '-') :
    parseSigned cs = none := by
  simp only [parseSigned]
  split
  case _ rest =>
    cases rest with
    | nil =>
      simp at hlast
      exact absurd hlast.symm h3
    | cons r rs =>
      rw [List.getLast?_cons_cons] at hlast
      exact parseUnsigned_eq_none_of_getLast hlast h1 h2
  case _ rest =>
    cases rest with
    | nil =>
      simp at hlast
      exact absurd hlast.symm h4
    | cons r rs =>
      rw [List.getLast?_cons_cons] at hlast
      rw [parseUnsigned_eq_none_of_getLast hlast h1 h2]
      rfl
  case _ =>
    exact parseUnsigned_eq_none_of_getLast hlast h1 h2

/-- A list whose last character is not a digit, point, sign or whitespace
is rejected by `parseFloat`. -/
theorem parseFloat_eq_none_of_getLast {cs : List Char} {c : Char}
    (hlast : cs.getLast? = some c) (h1 : isDigitCh c = false) (h2 : c ≠ '.')
    (h3 : c ≠ '+') (h4 : c ≠ '-') (h5 : c.isWhitespace = false) :
    parseFloat cs = none :=
  parseSigned_eq_none_of_getLast (pyStrip_getLast hlast h5) h1 h2 h3 h4

/-- An unsigned decimal literal never parses to a negative value. -/
theorem parseUnsigned_nonneg {cs : List Char} {q : ℚ}
    (h : parseUnsigned cs = some q) : 0 ≤ q := by
  simp only [parseUnsigned] at h
  split at h
  · split at h
    · exact absurd h (by simp)
    · injection h with h
      rw [← h]
      positivity
  · split at h
    · injection h with h
      rw [← h]
      positivity
    · exact absurd h (by simp)
  · exact absurd h (by simp)

/-- A signed literal without a minus character never parses to a negative
value. -/
theorem parseSigned_nonneg {cs : List Char} {q : ℚ} (hm : '-' ∉ cs)
    (h : parseSigned cs = some q) : 0 ≤ q := by
  simp only [parseSigned] at h
  split at h
  · exact parseUnsigned_nonneg h
  · exact absurd (List.mem_cons_self _ _) hm
  · exact parseUnsigned_nonneg h

/-- Whitespace stripping only removes characters. -/
theorem mem_pyStrip {cs : List Char} {a : Char} (h : a ∈ pyStrip cs) : a ∈ cs := by
  unfold pyStrip at h
  rw [List.mem_reverse] at h
  have h2 := (List.dropWhile_sublist _).subset h
  rw [List.mem_reverse] at h2
  exact (List.dropWhile_sublist _).subset h2

/-- A character list without a minus character never parses to a negative
value. -/
theorem parseFloat_nonneg {cs : List Char} {q : ℚ} (hm : '-' ∉ cs)
    (h : parseFloat cs = some q) : 0 ≤ q :=
  parseSigned_nonneg (fun hx => hm (mem_pyStrip hx)) h

/-- C1 (counterexample): the claim says every input yields a number, with
0 as a silent fallback on any parse failure; but on `"abcM"` the suffix
branch calls `float("abc")` outside the `try/except`, so `parse_box_office`
raises an uncaught `ValueError` (modelled as `none`) instead of returning
a number. -/
theorem C1_cex : ¬ ∃ q : ℚ, parse_box_office (some "abcM") = some q := by
  have h : parse_box_office (some "abcM") = none := by decide
  rintro ⟨q, hq⟩
  rw [h] at hq
  exact Option.noConfusion hq

/-- C1 (amended): `parse_box_office` fails to return a number exactly when
the cleaned input ends with an uppercase `'M'` or `'K'` and the remaining
numeric part does not parse as a float; in every other case it returns a
number, the direct-parse branch falling back to 0 on failure. -/
theorem C1_amended (v : Option String) :
    parse_box_office v = none ↔
      ∃ s, v = some s ∧
        ((cleanBO s).getLast? = some 'M' ∨ (cleanBO s).getLast? = some 'K') ∧
        parseFloat (cleanBO s).dropLast = none := by
  cases v with
  | none => simp [parse_box_office]
  | some s =>
    simp only [Option.some.injEq, exists_eq_left']
    by_cases hM : (cleanBO s).getLast? = some 'M'
    · simp [parse_box_office, hM, Option.map_eq_none']
    · by_cases hK : (cleanBO s).getLast? = some 'K'
      · simp [parse_box_office, hM, hK, Option.map_eq_none']
      · cases hpf : parseFloat (cleanBO s) with
        | none => simp [parse_box_office, hM, hK, hpf]
        | some q => simp [parse_box_office, hM, hK, hpf]

/-- C5: the normalizer evaluates to the spec's concrete values, and any
input whose cleaned form ends in a lowercase `'m'` or `'k'` misses the
exact-case suffix checks, falls through to the direct decimal parse and
yields 0. -/
theorem C5_normalizer_values :
    parse_box_office (some "$1,234.5M") = some 1234500000 ∧
    parse_box_office (some "$500K") = some 500000 ∧
    parse_box_office (some "") = some 0 ∧
    parse_box_office (some "N/A") = some 0 ∧
    parse_box_office none = some 0 ∧
    ∀ s : String, ((cleanBO s).getLast? = some 'm' ∨ (cleanBO s).getLast? = some 'k') →
      parse_box_office (some s) = some 0 := by
  refine ⟨?_, ?_, by decide, by decide, rfl, ?_⟩
  · simp [parse_box_office, cleanBO, parseFloat, parseSigned, parseUnsigned, pyStrip,
      natOfDigits, digitVal, isDigitCh]
    norm_num
  · simp [parse_box_office, cleanBO, parseFloat, parseSigned, parseUnsigned, pyStrip,
      natOfDigits, digitVal, isDigitCh]
    norm_num
  · intro s hs
    have hfl : parseFloat (cleanBO s) = none := by
      rcases hs with h | h
      · exact parseFloat_eq_none_of_getLast h (by decide) (by decide) (by decide)
          (by decide) (by decide)
      · exact parseFloat_eq_none_of_getLast h (by decide) (by decide) (by decide)
          (by decide) (by decide)
    have hM : ¬ ((cleanBO s).getLast? = some 'M') := by
      rcases hs with h | h <;> rw [h] <;> decide
    have hK : ¬ ((cleanBO s).getLast? = some 'K') := by
      rcases hs with h | h <;> rw [h] <;> decide
    simp [parse_box_office, hM, hK, hfl]

/-- C5 (witness): the quantified lowercase-suffix part of
`C5_normalizer_values` instantiated at the input `"500k"`. -/
theorem C5_witness :
    ((cleanBO "500k").getLast? = some 'm' ∨ (cleanBO "500k").getLast? = some 'k') ∧
    parse_box_office (some "500k") = some 0 :=
  ⟨Or.inr (by decide), C5_normalizer_values.2.2.2.2.2 "500k" (Or.inr (by decide))⟩

/-- C6 (counterexample): the claim says the normalized value is always
non-negative, but the input `"-5"` normalizes to the negative number -5. -/
theorem C6_cex : parse_box_office (some "-5") = some (-5) ∧ ((-5 : ℚ) < 0) := by
  constructor
  · simp [parse_box_office, cleanBO, parseFloat, parseSigned, parseUnsigned, pyStrip,
      natOfDigits, digitVal, isDigitCh]
  · norm_num

/-- C6 (amended): whenever `parse_box_office` returns a value and the
cleaned input contains no minus sign — as is the case for every dollar
figure the dataset format describes — that value is non-negative, with
unparseable or missing input mapped to 0. -/
theorem C6_amended (v : Option String) (q : ℚ) (h : parse_box_office v = some q)
    (hn : ∀ s, v = some s → '-' ∉ cleanBO s) : 0 ≤ q := by
  cases v with
  | none =>
    simp only [parse_box_office, Option.some.injEq] at h
    rw [← h]
  | some s =>
    have hs := hn s rfl
    simp only [parse_box_office] at h
    by_cases hM : (cleanBO s).getLast? = some 'M'
    · rw [if_pos hM] at h
      obtain ⟨q0, hq0, hq⟩ := Option.map_eq_some'.mp h
      have h0 : (0 : ℚ) ≤ q0 :=
        parseFloat_nonneg (fun hx => hs ((List.dropLast_sublist _).subset hx)) hq0
      rw [← hq]
      exact mul_nonneg h0 (by norm_num)
    · rw [if_neg hM] at h
      by_cases hK : (cleanBO s).getLast? = some 'K'
      · rw [if_pos hK] at h
        obtain ⟨q0, hq0, hq⟩ := Option.map_eq_some'.mp h
        have h0 : (0 : ℚ) ≤ q0 :=
          parseFloat_nonneg (fun hx => hs ((List.dropLast_sublist _).subset hx)) hq0
        rw [← hq]
        exact mul_nonneg h0 (by norm_num)
      · rw [if_neg hK] at h
        cases hpf : parseFloat (cleanBO s) with
        | none =>
          rw [hpf] at h
          injection h with h
          rw [← h]
        | some q0 =>
          rw [hpf] at h
          injection h with h
          rw [← h]
          exact parseFloat_nonneg hs hpf

/-- C6 (witness): `C6_amended` instantiated at the input `"$1,234.5M"`,
whose normalized value 1,234,500,000 is non-negative. -/
theorem C6_witness :
    parse_box_office (some "$1,234.5M") = some 1234500000 ∧ (0 : ℚ) ≤ 1234500000 := by
  have hpf : parse_box_office (some "$1,234.5M") = some 1234500000 := by
    simp [parse_box_office, cleanBO, parseFloat, parseSigned, parseUnsigned, pyStrip,
      natOfDigits, digitVal, isDigitCh]
    norm_num
  exact ⟨hpf, C6_amended _ _ hpf (by intro s hs; cases hs; decide)⟩

/-- Membership in the filter pipeline's output, unfolded to the
conjunction of the three filter conditions. -/
theorem mem_filtered_df (df : List Movie) (c : String) (y1 y2 : Int) (g : String)
    (m : Movie) :
    m ∈ filtered_df df c y1 y2 g ↔
      m ∈ df ∧ (c = "All" ∨ m.certificate = some c) ∧
      (y1 ≤ m.year ∧ m.year ≤ y2) ∧
      (g = "Sci-Fi" → genre_contains_scifi m.genre = true) := by
  by_cases hc : c = "All" <;> by_cases hg : g = "Sci-Fi" <;>
    simp [filtered_df, hc, hg, List.mem_filter, and_assoc] <;> tauto

/-- C2: the filter pipeline returns exactly the records of the cleaned
dataset satisfying the conjunction of: certificate equals the selection
or the selection is `"All"` (no certificate constraint, so missing
certificates also match); year within the closed interval; and, when
Sci-Fi is selected, a case-insensitive `"Sci-Fi"` substring match on the
genre with missing genres excluded. -/
theorem C2_filter_pipeline (df : List Movie) (c : String) (y1 y2 : Int) (g : String)
    (m : Movie) :
    m ∈ filtered_df df c y1 y2 g ↔
      m ∈ df ∧ (c = "All" ∨ m.certificate = some c) ∧
      (y1 ≤ m.year ∧ m.year ≤ y2) ∧
      (g = "Sci-Fi" → genre_contains_scifi m.genre = true) :=
  mem_filtered_df df c y1 y2 g m

/-- C10: under any specific (non-`"All"`) certificate selection, every
record with a missing certificate is excluded from the filter output. -/
theorem C10_missing_certificate (df : List Movie) (c : String) (y1 y2 : Int)
    (g : String) (m : Movie) (hc : c ≠ "All") (hm : m.certificate = none) :
    m ∉ filtered_df df c y1 y2 g := by
  intro hmem
  rcases ((mem_filtered_df df c y1 y2 g m).mp hmem).2.1 with h | h
  · exact hc h
  · rw [hm] at h
    exact Option.noConfusion h

/-- C10 (witness): `C10_missing_certificate` at a concrete one-record
dataset whose record has no certificate, with certificate `"PG"`
selected: the record is excluded even though its year is in range. -/
theorem C10_witness :
    ("PG" ≠ "All") ∧ demoNoCert.certificate = none ∧
    demoNoCert ∉ filtered_df [demoNoCert] "PG" 1900 2100 "All Movies" :=
  ⟨by decide, rfl, C10_missing_certificate _ _ _ _ _ _ (by decide) rfl⟩

/-- `maxL` never returns `none` on a non-empty list. -/
theorem maxL_ne_none {α : Type} [LinearOrder α] {l : List α} (h : l ≠ []) :
    maxL l ≠ none := by
  cases l with
  | nil => exact absurd rfl h
  | cons b t =>
    simp only [maxL]
    cases maxL t <;> simp

/-- The value returned by `maxL` is an element of the list. -/
theorem maxL_mem {α : Type} [LinearOrder α] :
    ∀ {l : List α} {a : α}, maxL l = some a → a ∈ l
  | [], _, h => by simp [maxL] at h
  | b :: t, a, h => by
    simp only [maxL] at h
    cases ht : maxL t with
    | none =>
      rw [ht] at h
      injection h with h
      rw [← h]
      exact List.mem_cons_self _ _
    | some m =>
      rw [ht] at h
      injection h with h
      rcases max_choice b m with hm | hm
      · rw [hm] at h
        rw [← h]
        exact List.mem_cons_self _ _
      · rw [hm] at h
        rw [← h]
        exact List.mem_cons_of_mem _ (maxL_mem ht)

/-- The value returned by `maxL` bounds every element of the list. -/
theorem maxL_ub {α : Type} [LinearOrder α] :
    ∀ {l : List α} {a : α}, maxL l = some a → ∀ x ∈ l, x ≤ a
  | [], _, h => by simp [maxL] at h
  | b :: t, a, h => by
    simp only [maxL] at h
    cases ht : maxL t with
    | none =>
      rw [ht] at h
      injection h with h
      have htnil : t = [] := by
        by_contra hne
        exact maxL_ne_none hne ht
      intro x hx
      rw [htnil] at hx
      rcases List.mem_cons.mp hx with hxb | hxm
      · rw [hxb, h]
      · exact absurd hxm (List.not_mem_nil x)
    | some m =>
      rw [ht] at h
      injection h with h
      intro x hx
      rcases List.mem_cons.mp hx with hxb | hxm
      · rw [hxb, ← h]
        exact le_max_left b m
      · calc x ≤ m := maxL_ub ht x hxm
          _ ≤ max b m := le_max_right b m
          _ = a := h

/-- C3: on a non-empty filtered set containing at least one non-missing
rating, the two KPI argmax lookups return the name of a record attaining
the maximum rating (respectively maximum box office), and among tied
records it is the first in dataset order: everything before it in the
list misses the maximal value. -/
theorem C3_argmax_kpis (s : List Movie) (hb : s ≠ [])
    (hr : ∃ m ∈ s, (Movie.rating m).isSome = true) :
    (∃ mr qr l₁ l₂,
      top_rated_name s = some mr.name ∧ mr.rating = some qr ∧
      (∀ m ∈ s, ∀ q : ℚ, m.rating = some q → q ≤ qr) ∧
      s = l₁ ++ mr :: l₂ ∧ (∀ m ∈ l₁, m.rating ≠ some qr)) ∧
    (∃ mb l₁ l₂,
      top_grossing_name s = some mb.name ∧
      (∀ m ∈ s, m.box_office ≤ mb.box_office) ∧
      s = l₁ ++ mb :: l₂ ∧ (∀ m ∈ l₁, m.box_office ≠ mb.box_office)) := by
  constructor
  · obtain ⟨m0, hm0, hsome⟩ := hr
    obtain ⟨q0, hq0⟩ := Option.isSome_iff_exists.mp hsome
    have hq0mem : q0 ∈ s.filterMap Movie.rating :=
      List.mem_filterMap.mpr ⟨m0, hm0, hq0⟩
    obtain ⟨qr, hmaxL⟩ : ∃ qr, maxL (s.filterMap Movie.rating) = some qr := by
      cases hml : maxL (s.filterMap Movie.rating) with
      | none => exact absurd hml (maxL_ne_none (List.ne_nil_of_mem hq0mem))
      | some qr => exact ⟨qr, rfl⟩
    obtain ⟨m1, hm1, hm1r⟩ := List.mem_filterMap.mp (maxL_mem hmaxL)
    obtain ⟨mr, hfind⟩ :
        ∃ mr, s.find? (fun m => decide (Movie.rating m = some qr)) = some mr := by
      cases hf : s.find? (fun m => decide (Movie.rating m = some qr)) with
      | none =>
        have := List.find?_eq_none.mp hf m1 hm1
        simp [hm1r] at this
      | some mr => exact ⟨mr, rfl⟩
    obtain ⟨hp, l₁, l₂, hsplit, hprev⟩ := List.find?_eq_some.mp hfind
    refine ⟨mr, qr, l₁, l₂, ?_, of_decide_eq_true hp, ?_, hsplit, ?_⟩
    · have hidx : idxmaxBy Movie.rating s =
          s.find? (fun m => decide (Movie.rating m = some qr)) := by
        simp only [idxmaxBy]
        rw [hmaxL]
      simp only [top_rated_name, hidx, hfind, Option.map_some']
    · intro m hm q hq
      exact maxL_ub hmaxL q (List.mem_filterMap.mpr ⟨m, hm, hq⟩)
    · intro m hm
      have := hprev m hm
      simp at this
      exact this
  · have hfm : ∀ l : List Movie,
        l.filterMap (fun m => some m.box_office) = l.map Movie.box_office := by
      intro l
      induction l with
      | nil => rfl
      | cons a t ih => simp [List.filterMap_cons, ih]
    obtain ⟨qb, hmaxL⟩ :
        ∃ qb, maxL (s.filterMap (fun m => some m.box_office)) = some qb := by
      cases hml : maxL (s.filterMap (fun m => some m.box_office)) with
      | none =>
        rw [hfm] at hml
        exact absurd hml (maxL_ne_none (by simpa using hb))
      | some qb => exact ⟨qb, rfl⟩
    have hqbmem : qb ∈ s.map Movie.box_office := by
      rw [← hfm]
      exact maxL_mem hmaxL
    obtain ⟨m1, hm1, hm1b⟩ := List.mem_map.mp hqbmem
    obtain ⟨mb, hfind⟩ :
        ∃ mb, s.find? (fun m => decide (some m.box_office = some qb)) = some mb := by
      cases hf : s.find? (fun m => decide (some m.box_office = some qb)) with
      | none =>
        have := List.find?_eq_none.mp hf m1 hm1
        simp [hm1b] at this
      | some mb => exact ⟨mb, rfl⟩
    obtain ⟨hp, l₁, l₂, hsplit, hprev⟩ := List.find?_eq_some.mp hfind
    have hmbb : mb.box_office = qb := by
      have := of_decide_eq_true hp
      injection this
    refine ⟨mb, l₁, l₂, ?_, ?_, hsplit, ?_⟩
    · have hidx : idxmaxBy (fun m => some m.box_office) s =
          s.find? (fun m => decide (some m.box_office = some qb)) := by
        simp only [idxmaxBy]
        rw [hmaxL]
      simp only [top_grossing_name, hidx, hfind, Option.map_some']
    · intro m hm
      rw [hmbb]
      refine maxL_ub hmaxL m.box_office ?_
      rw [hfm]
      exact List.mem_map.mpr ⟨m, hm, rfl⟩
    · intro m hm
      have := hprev m hm
      simp at this
      rw [hmbb]
      exact this

/-- `charListLe` is reflexive. -/
theorem charListLe_refl : ∀ cs : List Char, charListLe cs cs = true
  | [] => rfl
  | c :: cs => by
    simp only [charListLe]
    rw [if_neg (lt_irrefl c.toNat), if_neg (lt_irrefl c.toNat)]
    exact charListLe_refl cs

/-- `charListLe` is total. -/
theorem charListLe_total :
    ∀ a b : List Char, charListLe a b = true ∨ charListLe b a = true
  | [], _ => Or.inl rfl
  | _ :: _, [] => Or.inr rfl
  | a :: as, b :: bs => by
    simp only [charListLe]
    rcases Nat.lt_trichotomy a.toNat b.toNat with h | h | h
    · left
      rw [if_pos h]
    · rw [if_neg (by omega), if_neg (by omega), if_neg (by omega), if_neg (by omega)]
      exact charListLe_total as bs
    · right
      rw [if_pos h]

/-- `charListLe` is transitive. -/
theorem charListLe_trans :
    ∀ a b c : List Char, charListLe a b = true → charListLe b c = true →
      charListLe a c = true
  | [], _, _, _, _ => rfl
  | _ :: _, [], _, h, _ => by simp [charListLe] at h
  | _ :: _, _ :: _, [], _, h => by simp [charListLe] at h
  | a :: as, b :: bs, c :: cs, h1, h2 => by
    simp only [charListLe] at h1 h2 ⊢
    by_cases hab : a.toNat < b.toNat
    · by_cases hbc : b.toNat < c.toNat
      · rw [if_pos (by omega)]
      · by_cases hcb : c.toNat < b.toNat
        · rw [if_neg hbc, if_pos hcb] at h2
          exact absurd h2 (by simp)
        · rw [if_pos (by omega)]
    · by_cases hba : b.toNat < a.toNat
      · rw [if_neg hab, if_pos hba] at h1
        exact absurd h1 (by simp)
      · by_cases hbc : b.toNat < c.toNat
        · rw [if_pos (by omega)]
        · by_cases hcb : c.toNat < b.toNat
          · rw [if_neg hbc, if_pos hcb] at h2
            exact absurd h2 (by simp)
          · rw [if_neg hab, if_neg hba] at h1
            rw [if_neg hbc, if_neg hcb] at h2
            rw [if_neg (by omega : ¬ a.toNat < c.toNat),
              if_neg (by omega : ¬ c.toNat < a.toNat)]
            exact charListLe_trans as bs cs h1 h2

/-- `minS` never returns `none` on a non-empty list. -/
theorem minS_ne_none {l : List String} (h : l ≠ []) : minS l ≠ none := by
  cases l with
  | nil => exact absurd rfl h
  | cons b t =>
    simp only [minS]
    cases minS t <;> simp

/-- The value returned by `minS` is an element of the list. -/
theorem minS_mem : ∀ {l : List String} {a : String}, minS l = some a → a ∈ l
  | [], _, h => by simp [minS] at h
  | b :: t, a, h => by
    simp only [minS] at h
    cases ht : minS t with
    | none =>
      rw [ht] at h
      injection h with h
      rw [← h]
      exact List.mem_cons_self _ _
    | some m =>
      rw [ht] at h
      injection h with h
      cases hc : charListLe b.toList m.toList with
      | true =>
        rw [hc] at h
        simp only [if_true] at h
        rw [← h]
        exact List.mem_cons_self _ _
      | false =>
        rw [hc] at h
        simp only [Bool.false_eq_true, if_false] at h
        rw [← h]
        exact List.mem_cons_of_mem _ (minS_mem ht)

/-- The value returned by `minS` is below every element of the list in
the order `charListLe`. -/
theorem minS_le : ∀ {l : List String} {a : String}, minS l = some a →
    ∀ x ∈ l, charListLe a.toList x.toList = true
  | [], _, h => by simp [minS] at h
  | b :: t, a, h => by
    simp only [minS] at h
    cases ht : minS t with
    | none =>
      rw [ht] at h
      injection h with h
      have htnil : t = [] := by
        by_contra hne
        exact minS_ne_none hne ht
      intro x hx
      rw [htnil] at hx
      rcases List.mem_cons.mp hx with hxb | hxm
      · rw [hxb, ← h]
        exact charListLe_refl _
      · exact absurd hxm (List.not_mem_nil x)
    | some m =>
      rw [ht] at h
      injection h with h
      intro x hx
      rcases List.mem_cons.mp hx with hxb | hxm
      · rw [hxb]
        cases hc : charListLe b.toList m.toList with
        | true =>
          rw [hc] at h
          simp only [if_true] at h
          rw [← h]
          exact charListLe_refl _
        | false =>
          rw [hc] at h
          simp only [Bool.false_eq_true, if_false] at h
          rw [← h]
          rcases charListLe_total b.toList m.toList with hbm | hmb
          · rw [hc] at hbm
            exact absurd hbm (by simp)
          · exact hmb
      · have hmx := minS_le ht x hxm
        cases hc : charListLe b.toList m.toList with
        | true =>
          rw [hc] at h
          simp only [if_true] at h
          rw [← h]
          exact charListLe_trans _ _ _ hc hmx
        | false =>
          rw [hc] at h
          simp only [Bool.false_eq_true, if_false] at h
          rw [← h]
          exact hmx

/-- C4 (counterexample): on the 4-record set with genre strings Drama,
Drama, Action, Action — in that encounter order — the first value to
reach the maximal count is Drama, but the code returns Action: pandas
`mode()` sorts the tied modes ascending before `[0]` picks the first. -/
theorem C4_cex :
    most_common_genre [demoG1, demoG2, demoG3, demoG4] = some "Action" ∧
    ("Action" : String) ≠ "Drama" :=
  ⟨by decide, by decide⟩

/-- C4 (amended): `most_common_genre` is the mode of the raw genre
strings (each record's full genre string counted as one categorical
value, missing genres dropped), and when several genre strings tie at
the maximal count the lexicographically least of them (code-point order,
the order pandas `mode()` sorts by) is returned; on genres
[Drama, Drama, Action] this still gives Drama. -/
theorem C4_amended (s : List Movie) (h : s.filterMap Movie.genre ≠ []) :
    ∃ g, most_common_genre s = some g ∧
      g ∈ s.filterMap Movie.genre ∧
      (∀ g2 ∈ s.filterMap Movie.genre,
        (s.filterMap Movie.genre).count g2 ≤ (s.filterMap Movie.genre).count g) ∧
      (∀ g2 ∈ s.filterMap Movie.genre,
        (s.filterMap Movie.genre).count g2 = (s.filterMap Movie.genre).count g →
          charListLe g.toList g2.toList = true) := by
  obtain ⟨c, hmaxL⟩ : ∃ c, maxL ((s.filterMap Movie.genre).map
      (fun g => (s.filterMap Movie.genre).count g)) = some c := by
    cases hml : maxL ((s.filterMap Movie.genre).map
        (fun g => (s.filterMap Movie.genre).count g)) with
    | none => exact absurd hml (maxL_ne_none (by simpa using h))
    | some c => exact ⟨c, rfl⟩
  obtain ⟨g0, hg0, hg0c⟩ := List.mem_map.mp (maxL_mem hmaxL)
  have hg0f : g0 ∈ (s.filterMap Movie.genre).filter
      (fun g => decide ((s.filterMap Movie.genre).count g = c)) :=
    List.mem_filter.mpr ⟨hg0, by simp [hg0c]⟩
  obtain ⟨g, hming⟩ : ∃ g, minS ((s.filterMap Movie.genre).filter
      (fun g => decide ((s.filterMap Movie.genre).count g = c))) = some g := by
    cases hm : minS ((s.filterMap Movie.genre).filter
        (fun g => decide ((s.filterMap Movie.genre).count g = c))) with
    | none => exact absurd hm (minS_ne_none (List.ne_nil_of_mem hg0f))
    | some g => exact ⟨g, rfl⟩
  have hgf := List.mem_filter.mp (minS_mem hming)
  have hgc : (s.filterMap Movie.genre).count g = c := by simpa using hgf.2
  refine ⟨g, ?_, hgf.1, ?_, ?_⟩
  · simp only [most_common_genre]
    rw [hmaxL]
    exact hming
  · intro g2 hg2
    rw [hgc]
    exact maxL_ub hmaxL _ (List.mem_map.mpr ⟨g2, hg2, rfl⟩)
  · intro g2 hg2 hcnt
    refine minS_le hming g2 (List.mem_filter.mpr ⟨hg2, ?_⟩)
    simp [hcnt, hgc]

/-- C4 (witness): `C4_amended` at the 3-record set with genres
[Drama, Drama, Action], where the mode is unique and equals Drama. -/
theorem C4_witness :
    ([demoG1, demoG2, demoG3].filterMap Movie.genre ≠ []) ∧
    (∃ g, most_common_genre [demoG1, demoG2, demoG3] = some g ∧
      g ∈ [demoG1, demoG2, demoG3].filterMap Movie.genre ∧
      (∀ g2 ∈ [demoG1, demoG2, demoG3].filterMap Movie.genre,
        ([demoG1, demoG2, demoG3].filterMap Movie.genre).count g2 ≤
          ([demoG1, demoG2, demoG3].filterMap Movie.genre).count g) ∧
      (∀ g2 ∈ [demoG1, demoG2, demoG3].filterMap Movie.genre,
        ([demoG1, demoG2, demoG3].filterMap Movie.genre).count g2 =
          ([demoG1, demoG2, demoG3].filterMap Movie.genre).count g →
          charListLe g.toList g2.toList = true)) ∧
    most_common_genre [demoG1, demoG2, demoG3] = some "Drama" :=
  ⟨by decide, C4_amended [demoG1, demoG2, demoG3] (by decide), by decide⟩

/-- C3 (witness): `C3_argmax_kpis` at the 2-record set where both records
share the maximal rating 9: the rating KPI returns the first record's
name and the box-office KPI the second record's (its value 7 beats 5). -/
theorem C3_witness :
    ([demoR1, demoR2] ≠ ([] : List Movie)) ∧
    (∃ m ∈ [demoR1, demoR2], (Movie.rating m).isSome = true) ∧
    ((∃ mr qr l₁ l₂,
      top_rated_name [demoR1, demoR2] = some mr.name ∧ mr.rating = some qr ∧
      (∀ m ∈ [demoR1, demoR2], ∀ q : ℚ, m.rating = some q → q ≤ qr) ∧
      [demoR1, demoR2] = l₁ ++ mr :: l₂ ∧ (∀ m ∈ l₁, m.rating ≠ some qr)) ∧
    (∃ mb l₁ l₂,
      top_grossing_name [demoR1, demoR2] = some mb.name ∧
      (∀ m ∈ [demoR1, demoR2], m.box_office ≤ mb.box_office) ∧
      [demoR1, demoR2] = l₁ ++ mb :: l₂ ∧
      (∀ m ∈ l₁, m.box_office ≠ mb.box_office))) ∧
    top_rated_name [demoR1, demoR2] = some "First Nine" ∧
    top_grossing_name [demoR1, demoR2] = some "Second Nine" :=
  ⟨by decide, ⟨demoR1, by decide, by decide⟩,
    C3_argmax_kpis [demoR1, demoR2] (by decide) ⟨demoR1, by decide, by decide⟩,
    by decide, by decide⟩

/-- C7 (code evaluation at the failing input): on two records with casts
`"A, B, C"` and `"B, D"`, the split-on-comma tokens keep their leading
spaces, so the exploded column is `["A", " B", " C", "B", " D"]` and the
code counts `"B"` once (and `" B"` once, separately) — not twice as the
claim requires. -/
theorem C7_eval :
    castTokens [demoC1, demoC2] = ["A", " B", " C", "B", " D"] ∧
    actor_count [demoC1, demoC2] "B" = 1 ∧
    actor_count [demoC1, demoC2] " B" = 1 ∧
    actor_count [demoC1, demoC2] "A" = 1 ∧
    actor_count [demoC1, demoC2] " C" = 1 ∧
    actor_count [demoC1, demoC2] " D" = 1 ∧
    actor_count [demoC1, demoC2] "B" ≠ 2 := by
  refine ⟨by decide, by decide, by decide, by decide, by decide, by decide, by decide⟩

/-- C9: on the empty filtered set `Home` takes its placeholder branch —
total count 0 and the `"N/A"` sentinel for all three name/genre KPIs,
with no aggregation evaluated — and both `graphs()` and `tables()` skip
all their computations behind their `"no data"` guards; nothing raises. -/
theorem C9_empty_set :
    Home_kpis [] = some (0, "N/A", "N/A", "N/A") ∧
    graphs_data [] = none ∧ tables_data [] = none :=
  ⟨rfl, rfl, rfl⟩

end TopFilms
